import Mathlib

/-!
Verification of the running-routes scripts.

Shallow embedding of the GPX-processing scripts of the repository:
`generate_gpx_files.py`, `fix_summit_waypoints.py`, `enhance_elevation.py`
and `plot_route_from_waypoints.py`.  Geographic/float values are modelled
as rationals; external library primitives (geodesic distance, cosine,
map projection, the networkx shortest-path search, the Open-Elevation
HTTP API, MD5) are taken as parameters of the embedded functions, so the
theorems quantify over every possible behaviour of those libraries.
-/

set_option autoImplicit false

namespace RunningRoutes

/-! ### GPX data model (shallow embedding of the gpxpy objects used) -/

/-- A GPX track point (latitude, longitude, optional elevation). -/
structure TrackPoint where
  lat : ℚ
  lon : ℚ
  elevation : Option ℚ
deriving Repr, DecidableEq

/-- A GPX track segment: an ordered list of track points. -/
structure Segment where
  points : List TrackPoint
deriving Repr, DecidableEq

/-- A GPX track: an optional name and an ordered list of segments. -/
structure Track where
  name : Option String
  segments : List Segment
deriving Repr, DecidableEq

/-- A GPX waypoint.  `dobihNumber` models the text of the
`rr:dobih_number` element of the waypoint extensions when such an
element is present (the value `get_custom_dobih_number` extracts in
`fix_summit_waypoints.py`). -/
structure Waypoint where
  latitude : Option ℚ
  longitude : Option ℚ
  elevation : Option ℚ
  name : Option String
  symbol : Option String
  dobihNumber : Option String
deriving Repr, DecidableEq

/-- A GPX document: waypoints and tracks. -/
structure GPX where
  waypoints : List Waypoint
  tracks : List Track
deriving Repr, DecidableEq

/-! ### generate_gpx_files.py -/

/-- Python `s.strip()` (ASCII whitespace removed from both ends). -/
def pyStrip (s : String) : String :=
  ⟨((s.data.dropWhile Char.isWhitespace).reverse.dropWhile
      Char.isWhitespace).reverse⟩

/-- Python `s.lower()` (ASCII case folding). -/
def pyLower (s : String) : String :=
  ⟨s.data.map Char.toLower⟩

/-- Python `(wpt.symbol or '').strip().lower()` on an optional symbol. -/
def pyNormalizedSymbol (s : Option String) : String :=
  pyLower (pyStrip (s.getD ""))

/-- The summit test of `extract_summits_and_poi`. -/
def isSummitWaypoint (w : Waypoint) : Bool :=
  pyNormalizedSymbol w.symbol == "summit"

/-- `extract_summits_and_poi`: the two waypoint filters of
`generate_gpx_files.py` (summits first, then everything else). -/
def extract_summits_and_poi (gpx : GPX) : List Waypoint × List Waypoint :=
  (gpx.waypoints.filter (fun w => isSummitWaypoint w),
   gpx.waypoints.filter (fun w => !(isSummitWaypoint w)))

/-- Python truthiness of an optional string: `None` and `''` are falsy. -/
def pyFalsyStr : Option String → Bool
  | none => true
  | some s => s == ""

/-- `build_summits_gpx`: forces every summit symbol to `"Summit"` and
returns a GPX holding only those waypoints. -/
def build_summits_gpx (summits : List Waypoint) : GPX :=
  { waypoints := summits.map (fun w => { w with symbol := some "Summit" }),
    tracks := [] }

/-- `build_poi_gpx`: numbers unnamed points of interest from 1 and
defaults a missing symbol to `"Info"`. -/
def build_poi_gpx (poi : List Waypoint) : GPX :=
  { waypoints := poi.enum.map (fun p =>
      let w := p.2
      let w1 := if pyFalsyStr w.name then
          { w with name := some ("POI " ++ toString (p.1 + 1)) } else w
      if pyFalsyStr w1.symbol then { w1 with symbol := some "Info" } else w1),
    tracks := [] }

/-- `build_track_only_gpx`: keeps the tracks, drops the waypoints. -/
def build_track_only_gpx (gpx : GPX) : GPX :=
  { waypoints := [], tracks := gpx.tracks }

/-- `build_simplified_track_gpx`: one merged track named
`name + " (Simplified)"` with a single segment whose point list is built
by the double `extend` loop over every segment of every track. -/
def build_simplified_track_gpx (gpx : GPX) (name : String) : GPX :=
  let mergedPoints := gpx.tracks.foldl
    (fun acc t => t.segments.foldl (fun acc2 s => acc2 ++ s.points) acc) []
  { waypoints := [],
    tracks := [{ name := some (name ++ " (Simplified)"),
                 segments := [{ points := mergedPoints }] }] }

/-- File names written by `extract_derivative_files` for one route, in
write order: summits, points of interest, track only, detailed,
simplified, then one leg file per track (legs numbered from 1).  The
contents written are the ones produced by the build functions above. -/
def extract_derivative_files_names (gpx : GPX) (pfx : String) : List String :=
  [pfx ++ "-summits.gpx",
   pfx ++ "-points-of-interest.gpx",
   pfx ++ "-track.gpx",
   pfx ++ "-detailed.gpx",
   pfx ++ "-simplified.gpx"]
  ++ (List.range gpx.tracks.length).map
      (fun i => pfx ++ "-leg-" ++ toString (i + 1) ++ ".gpx")

/-! ### fix_summit_waypoints.py -/

/-- One row of the hill database after
`df[['Number', 'Name', 'Latitude', 'Longitude', 'Metres']].dropna()`. -/
structure HillRow where
  number : Nat
  hillName : String
  latitude : ℚ
  longitude : ℚ
  metres : ℚ
deriving Repr, DecidableEq

/-- Python `s.isdigit()` restricted to ASCII strings: non-empty and every
character a decimal digit. -/
def pyIsDigit (s : String) : Bool :=
  !(s.data.isEmpty) && s.data.all Char.isDigit

/-- Python `int(s)` for a decimal-digit string. -/
def pyInt (s : String) : Nat :=
  s.data.foldl (fun acc c => 10 * acc + (c.toNat - 48)) 0

/-- The per-waypoint body of the loop of `enrich_gpx_with_hill_data`:
a waypoint whose symbol is exactly `'Summit'` and whose extension holds
a numeric DoBIH id matching a `Number` of the hill database has its
latitude, longitude, elevation and name overwritten from the first
matching row; every other branch (name lookup, missing id, unknown id,
non-summit symbol) only prints and leaves the waypoint unchanged. -/
def enrichWaypoint (hills : List HillRow) (w : Waypoint) : Waypoint :=
  if w.symbol == some "Summit" then
    match w.dobihNumber with
    | some hid =>
      if pyIsDigit hid then
        match hills.find? (fun r => r.number == pyInt hid) with
        | some row =>
          { w with latitude := some row.latitude,
                   longitude := some row.longitude,
                   elevation := some row.metres,
                   name := some row.hillName }
        | none => w
      else w
    | none => w
  else w

/-- `enrich_gpx_with_hill_data`: mutates the waypoints of the parsed GPX
in place (modelled as a map) and writes the document back out. -/
def enrich_gpx_with_hill_data (hills : List HillRow) (gpx : GPX) : GPX :=
  { gpx with waypoints := gpx.waypoints.map (enrichWaypoint hills) }

/-! ### enhance_elevation.py -/

/-- The batching loop `for i in range(0, len(coordinates), 100)` of
`get_elevation_open_elevation`: successive slices of at most 100
coordinates. -/
def chunked100 {α : Type} : List α → List (List α)
  | [] => []
  | a :: rest => ((a :: rest).take 100) :: chunked100 ((a :: rest).drop 100)
termination_by l => l.length
decreasing_by simp; omega

/-- Result of one batch request: on success the list of
`result.get('elevation')` values of the response, on failure (`except`
branch) one `None` per coordinate of the batch. -/
def apiBlock (api : List (ℚ × ℚ) → Option (List (Option ℚ)))
    (batch : List (ℚ × ℚ)) : List (Option ℚ) :=
  match api batch with
  | some rs => rs
  | none => List.replicate batch.length none

/-- `get_elevation_open_elevation`, parametrised by the Open-Elevation
API (`none` models a request that raises): extends the accumulator with
each batch result in order. -/
def get_elevation_open_elevation
    (api : List (ℚ × ℚ) → Option (List (Option ℚ)))
    (coords : List (ℚ × ℚ)) : List (Option ℚ) :=
  (chunked100 coords).foldl (fun acc batch => acc ++ apiBlock api batch) []

/-! ### plot_route_from_waypoints.py : waypoint validation and bounding box -/

/-- The `(lat, lon)` pairs of the waypoints with both coordinates
present (the `valid_waypoints` filter of `validate_waypoints`). -/
def validCoords (wpts : List Waypoint) : List (ℚ × ℚ) :=
  wpts.filterMap (fun w =>
    match w.latitude, w.longitude with
    | some la, some lo => some (la, lo)
    | _, _ => none)

/-- The consecutive-distance loop of `validate_waypoints`: `true` when
no consecutive pair is strictly farther apart than `maxDistance`. -/
def consecutivePairsOk (dist : ℚ × ℚ → ℚ × ℚ → ℚ) (maxDistance : ℚ) :
    List (ℚ × ℚ) → Bool
  | [] => true
  | [_] => true
  | a :: b :: rest =>
    decide (dist a b ≤ maxDistance) && consecutivePairsOk dist maxDistance (b :: rest)

/-- `validate_waypoints`, parametrised by the geodesic distance in km.
Returns `false` exactly when the script calls `sys.exit(1)`:
some waypoint lacks a coordinate, or the count exceeds `maxWaypoints`
(a Python `int`, so modelled as `ℤ`), or some consecutive pair of valid
waypoints is strictly farther apart than `maxDistance` km. -/
def validate_waypoints (dist : ℚ × ℚ → ℚ × ℚ → ℚ) (wpts : List Waypoint)
    (maxWaypoints : ℤ) (maxDistance : ℚ) : Bool :=
  let valid := validCoords wpts
  if valid.length < wpts.length then false
  else if (valid.length : ℤ) > maxWaypoints then false
  else consecutivePairsOk dist maxDistance valid

/-- Maximum of `a :: l` (Python `max` over a non-empty list). -/
def pyMax (a : ℚ) (l : List ℚ) : ℚ :=
  l.foldl max a

/-- Minimum of `a :: l` (Python `min` over a non-empty list). -/
def pyMin (a : ℚ) (l : List ℚ) : ℚ :=
  l.foldl min a

/-- `calculate_bounding_box`, parametrised by `cosDeg`, the composite
`math.cos(math.radians(·))` applied to the average latitude in degrees.
Raises `ValueError` (modelled by `Except.error`) on an empty list,
otherwise returns `(north, south, east, west)` with a 500 m buffer. -/
def calculate_bounding_box (cosDeg : ℚ → ℚ) (wpts : List (ℚ × ℚ)) :
    Except String (ℚ × ℚ × ℚ × ℚ) :=
  match wpts with
  | [] => Except.error "No waypoints provided"
  | w :: ws =>
    let lats := (w :: ws).map Prod.fst
    let avgLat := lats.sum / (lats.length : ℚ)
    let latBuffer : ℚ := 500 / 111000
    let lonBuffer : ℚ := 500 / (111320 * cosDeg avgLat)
    let north := pyMax w.1 (ws.map Prod.fst) + latBuffer
    let south := pyMin w.1 (ws.map Prod.fst) - latBuffer
    let east := pyMax w.2 (ws.map Prod.snd) + lonBuffer
    let west := pyMin w.2 (ws.map Prod.snd) - lonBuffer
    Except.ok (north, south, east, west)

/-! ### plot_route_from_waypoints.py : GraphML cache -/

/-- The on-disk cache directory, modelled as an association list of
file name, creation time (seconds) and content; a write shadows older
entries of the same name, it never removes an entry. -/
structure FSState (G : Type) where
  files : List (String × Nat × G)
deriving Repr

/-- Look a file up by name (most recent write wins). -/
def fsLookup {G : Type} (st : FSState G) (fname : String) : Option (Nat × G) :=
  (st.files.find? (fun f => f.1 == fname)).map Prod.snd

/-- Write (or overwrite) a file; older entries are shadowed, not erased. -/
def fsWrite {G : Type} (st : FSState G) (fname : String) (ctime : Nat) (g : G) :
    FSState G :=
  ⟨(fname, ctime, g) :: st.files⟩

/-- `bbox_hash`: the MD5 digest of the string `"{w},{s},{e},{n}"`.  The
coordinates are taken as their Python string representations and `md5`
parametrises the digest. -/
def bbox_hash (md5 : String → String) (w s e n : String) : String :=
  md5 (w ++ "," ++ s ++ "," ++ e ++ "," ++ n)

/-- The cache file name `graph_{hash}.graphml` used by
`download_osm_graph` (the call passes `west, south, east, north`). -/
def cacheFileName (md5 : String → String) (west south east north : String) :
    String :=
  "graph_" ++ bbox_hash md5 west south east north ++ ".graphml"

/-- `download_osm_graph`: load the cached graph when the cache file
exists, is not force-refreshed and is not older than
`maxCacheAgeDays` days (ages in seconds); otherwise download
`fetchGraph` and save it to the same file.  Returns the graph, the new
directory state and whether a download happened. -/
def download_osm_graph {G : Type} (md5 : String → String) (now : Nat)
    (west south east north : String) (maxCacheAgeDays : Nat)
    (forceRefresh : Bool) (fetchGraph : G) (st : FSState G) :
    G × FSState G × Bool :=
  let cacheFile := cacheFileName md5 west south east north
  match fsLookup st cacheFile with
  | some (ctime, g) =>
    if forceRefresh || decide (now - ctime > maxCacheAgeDays * 86400) then
      (fetchGraph, fsWrite st cacheFile now fetchGraph, true)
    else
      (g, st, false)
  | none => (fetchGraph, fsWrite st cacheFile now fetchGraph, true)

/-! ### plot_route_from_waypoints.py : elevation-aware edge costs -/

/-- Data of a projected graph node: coordinates and the optional
`elevation` attribute. -/
structure NodeData where
  x : ℚ
  y : ℚ
  elevation : Option ℚ
deriving Repr, DecidableEq

/-- Attributes of a graph edge before costing.  `geomLength` is the
`.length` of the shapely `geometry` attribute when one is present. -/
structure EdgeData where
  length : Option ℚ
  geomLength : Option ℚ
deriving Repr, DecidableEq

/-- A multigraph edge `(u, v, key, data)`. -/
structure GEdge where
  u : Nat
  v : Nat
  key : Nat
  data : EdgeData
deriving Repr, DecidableEq

/-- The OSM multigraph: nodes with data, and edges. -/
structure OSMGraph where
  nodes : List (Nat × NodeData)
  edges : List GEdge
deriving Repr, DecidableEq

/-- `graph.nodes[n]` as a lookup. -/
def lookupNode (g : OSMGraph) (n : Nat) : Option NodeData :=
  (g.nodes.find? (fun p => p.1 == n)).map Prod.snd

/-- `_edge_length`, parametrised by the geodesic distance in metres
(`none` models an exception, which the function turns into `0`): the
`length` attribute, else the geometry length, else the geodesic
distance between the endpoints, else `0`.  A failed node lookup in the
geodesic branch is also caught by the bare `except` and yields `0`. -/
def _edge_length (geo : ℚ × ℚ → ℚ × ℚ → Option ℚ) (g : OSMGraph)
    (u v : Nat) (data : EdgeData) : ℚ :=
  match data.length with
  | some l => l
  | none =>
    match data.geomLength with
    | some gl => gl
    | none =>
      match lookupNode g u, lookupNode g v with
      | some nu, some nv => (geo (nu.y, nu.x) (nv.y, nv.x)).getD 0
      | _, _ => 0

/-- Edge attributes written back by `add_elevation_costs`. -/
structure CostedEdgeData where
  length : ℚ
  geomLength : Option ℚ
  elevation_gain : ℚ
  elevation_loss : ℚ
  cost : ℚ
deriving Repr, DecidableEq

/-- A costed multigraph edge. -/
structure CostedEdge where
  u : Nat
  v : Nat
  key : Nat
  data : CostedEdgeData
deriving Repr, DecidableEq

/-- The loop body of `add_elevation_costs` for one edge.  The node
lookups `graph.nodes[u]` and `graph.nodes[v]` raise `KeyError` when an
endpoint is absent (modelled by `none`); gain and loss stay `0` unless
both elevations are present. -/
def costEdge (geo : ℚ × ℚ → ℚ × ℚ → Option ℚ) (g : OSMGraph)
    (gainPenalty lossPenalty : ℚ) (e : GEdge) : Option CostedEdge :=
  match lookupNode g e.u, lookupNode g e.v with
  | some nu, some nv =>
    some { u := e.u, v := e.v, key := e.key,
           data :=
             { length := _edge_length geo g e.u e.v e.data,
               geomLength := e.data.geomLength,
               elevation_gain :=
                 match nu.elevation, nv.elevation with
                 | some a, some b => max 0 (b - a)
                 | _, _ => 0,
               elevation_loss :=
                 match nu.elevation, nv.elevation with
                 | some a, some b => max 0 (a - b)
                 | _, _ => 0,
               cost := _edge_length geo g e.u e.v e.data
                 + gainPenalty *
                   (match nu.elevation, nv.elevation with
                    | some a, some b => max 0 (b - a)
                    | _, _ => 0)
                 + lossPenalty *
                   (match nu.elevation, nv.elevation with
                    | some a, some b => max 0 (a - b)
                    | _, _ => 0) } }
  | _, _ => none

/-- A loop over a list whose body may raise: `none` as soon as one
element fails, otherwise the list of results in order. -/
def mapOption {α β : Type} (f : α → Option β) : List α → Option (List β)
  | [] => some []
  | a :: l =>
    match f a, mapOption f l with
    | some b, some bs => some (b :: bs)
    | _, _ => none

/-- `add_elevation_costs`: cost every edge of the graph in order
(`none` when some edge endpoint is missing from the node set, the
uncaught `KeyError` of the source loop). -/
def add_elevation_costs (geo : ℚ × ℚ → ℚ × ℚ → Option ℚ) (g : OSMGraph)
    (gainPenalty lossPenalty : ℚ) : Option (List CostedEdge) :=
  mapOption (costEdge geo g gainPenalty lossPenalty) g.edges

/-! ### plot_route_from_waypoints.py : waypoint snapping -/

/-- A route waypoint `[lat, lon, name, symbol]` as grouped by
`group_waypoints`. -/
structure RouteWaypoint where
  lat : ℚ
  lon : ℚ
  name : Option String
  symbol : Option String
deriving Repr, DecidableEq

/-- A node of the projected graph as used by the snapping step. -/
structure SnapNode where
  id : Nat
  x : ℚ
  y : ℚ
deriving Repr, DecidableEq

/-- The projected graph the waypoints are snapped to. -/
structure SnapGraph where
  nodes : List SnapNode
  edges : List (Nat × Nat)
deriving Repr, DecidableEq

/-- `ox.distance.nearest_nodes(graph, x, y, return_dist=True)`,
parametrised by the metric `d` of the projected plane: the node of the
graph minimising the distance to the query point, together with that
distance (`none` only on an empty node set, where the library raises). -/
def nearestNodeAux (d : ℚ × ℚ → ℚ × ℚ → ℚ) (p : ℚ × ℚ) :
    List SnapNode → Option (Nat × ℚ)
  | [] => none
  | nd :: nds =>
    match nearestNodeAux d p nds with
    | none => some (nd.id, d p (nd.x, nd.y))
    | some (m, dm) =>
      if d p (nd.x, nd.y) ≤ dm then some (nd.id, d p (nd.x, nd.y))
      else some (m, dm)

/-- `snap_waypoints_to_graph`, parametrised by the metric `d` and the
projection `proj` (WGS84 `(lon, lat)` to graph CRS).  For each waypoint
the nearest existing node is found; waypoints farther than
`snapThreshold` are skipped, the others are kept together with the id
of that nearest node.  The graph itself is not touched. -/
def snap_waypoints_to_graph (d : ℚ × ℚ → ℚ × ℚ → ℚ)
    (proj : ℚ × ℚ → ℚ × ℚ) (g : SnapGraph) (wpts : List RouteWaypoint)
    (snapThreshold : ℚ) : List Nat × List RouteWaypoint :=
  match wpts with
  | [] => ([], [])
  | w :: rest =>
    match nearestNodeAux d (proj (w.lon, w.lat)) g.nodes with
    | none => snap_waypoints_to_graph d proj g rest snapThreshold
    | some (nid, dist) =>
      if dist > snapThreshold then
        snap_waypoints_to_graph d proj g rest snapThreshold
      else (nid :: (snap_waypoints_to_graph d proj g rest snapThreshold).1,
            w :: (snap_waypoints_to_graph d proj g rest snapThreshold).2)

/-- The keep test of the snapping loop: the waypoint's nearest node is
within the threshold. -/
def keptWaypoint (d : ℚ × ℚ → ℚ × ℚ → ℚ) (proj : ℚ × ℚ → ℚ × ℚ)
    (g : SnapGraph) (snapThreshold : ℚ) (w : RouteWaypoint) : Bool :=
  match nearestNodeAux d (proj (w.lon, w.lat)) g.nodes with
  | none => false
  | some (_, dist) => !(decide (dist > snapThreshold))

/-! ### plot_route_from_waypoints.py : shortest paths -/

/-- `calculate_paths`, parametrised by the networkx weighted
shortest-path search (`sp u v = none` models `NetworkXNoPath`): for
each consecutive pair of node ids, the found path, or the two-node
fallback `[u, v]` when no path exists. -/
def calculate_paths (sp : Nat → Nat → Option (List Nat))
    (nodeIds : List Nat) : List (List Nat) :=
  (List.range (nodeIds.length - 1)).map (fun i =>
    match sp (nodeIds.getD i 0) (nodeIds.getD (i + 1) 0) with
    | some p => p
    | none => [nodeIds.getD i 0, nodeIds.getD (i + 1) 0])

/-! ### Concrete inputs used by witnesses and counterexamples -/

/-- A waypoint with no attributes set. -/
def defaultWaypoint : Waypoint :=
  { latitude := none, longitude := none, elevation := none,
    name := none, symbol := none, dobihNumber := none }

/-- A waypoint at the origin with no metadata. -/
def originWaypoint : Waypoint :=
  { defaultWaypoint with latitude := some 0, longitude := some 0 }

/-- A metric stub for concrete inputs: distance 0 between identical
points and 1 otherwise (kernel-computable, unlike Euclidean distance on
rationals). -/
def flatMetric : ℚ × ℚ → ℚ × ℚ → ℚ :=
  fun p q => if p = q then 0 else 1

/-- A two-node, one-edge projected graph. -/
def twoNodeGraph : SnapGraph :=
  { nodes := [⟨7, 0, 0⟩, ⟨8, 10, 0⟩], edges := [(7, 8)] }

/-- A route waypoint at the origin. -/
def originRouteWaypoint : RouteWaypoint :=
  { lat := 0, lon := 0, name := none, symbol := none }

/-- A shortest-path oracle that fails on the pair summing to 3 and
otherwise returns the direct two-node path. -/
def spOracle : Nat → Nat → Option (List Nat) :=
  fun u v => if u + v == 3 then none else some [u, v]

/-! ### General helper lemmas -/

theorem foldl_append_bind {β γ : Type} (f : β → List γ) :
    ∀ (l : List β) (acc : List γ),
      l.foldl (fun a b => a ++ f b) acc = acc ++ l.flatMap f := by
  intro l
  induction l with
  | nil => intro acc; simp
  | cons b l ih =>
    intro acc
    simp [List.foldl_cons, ih, List.append_assoc]

theorem length_filter_partition {α : Type} (p : α → Bool) (l : List α) :
    (l.filter p).length + (l.filter (fun a => !(p a))).length = l.length := by
  induction l with
  | nil => rfl
  | cons a l ih =>
    by_cases h : p a = true <;> simp [List.filter_cons, h, ← ih] <;> omega

/-- A small GPX document: one summit-like waypoint (symbol needing
normalisation), one bare waypoint, two tracks. -/
def sampleGPX : GPX :=
  { waypoints :=
      [{ defaultWaypoint with symbol := some " Summit " }, originWaypoint],
    tracks :=
      [{ name := none,
         segments := [{ points := [⟨1, 2, none⟩] },
                      { points := [⟨3, 4, some 5⟩] }] },
       { name := some "L2", segments := [] }] }

/-! ### C6 : waypoint partition and derivative files -/

/-- C6: `extract_summits_and_poi` partitions the waypoint list: a
waypoint is a summit iff its symbol, stripped and lowercased, is
`"summit"` (a missing symbol is non-summit); the two lists cover the
waypoints, are disjoint, and preserve relative order; and
`extract_derivative_files` writes the summits, points-of-interest,
track-only, detailed and simplified files plus one leg file per
track. -/
theorem C6_extract_summits_and_poi (gpx : GPX) (pfx : String) :
    ((extract_summits_and_poi gpx).1.length
        + (extract_summits_and_poi gpx).2.length = gpx.waypoints.length) ∧
    (∀ w ∈ gpx.waypoints,
      (w ∈ (extract_summits_and_poi gpx).1 ↔
        pyNormalizedSymbol w.symbol = "summit") ∧
      (w ∈ (extract_summits_and_poi gpx).2 ↔
        pyNormalizedSymbol w.symbol ≠ "summit")) ∧
    (∀ w : Waypoint,
      ¬(w ∈ (extract_summits_and_poi gpx).1 ∧
        w ∈ (extract_summits_and_poi gpx).2)) ∧
    (∀ w ∈ gpx.waypoints, w.symbol = none →
      w ∈ (extract_summits_and_poi gpx).2) ∧
    List.Sublist (extract_summits_and_poi gpx).1 gpx.waypoints ∧
    List.Sublist (extract_summits_and_poi gpx).2 gpx.waypoints ∧
    extract_derivative_files_names gpx pfx
      = [pfx ++ "-summits.gpx", pfx ++ "-points-of-interest.gpx",
         pfx ++ "-track.gpx", pfx ++ "-detailed.gpx",
         pfx ++ "-simplified.gpx"]
        ++ (List.range gpx.tracks.length).map
            (fun i => pfx ++ "-leg-" ++ toString (i + 1) ++ ".gpx") ∧
    (extract_derivative_files_names gpx pfx).length = 5 + gpx.tracks.length := by
  refine ⟨length_filter_partition _ _, ?_, ?_, ?_, ?_, ?_, rfl, ?_⟩
  · intro w hw
    constructor
    · simp [extract_summits_and_poi, List.mem_filter, hw, isSummitWaypoint]
    · simp [extract_summits_and_poi, List.mem_filter, hw, isSummitWaypoint]
  · intro w hw
    rcases hw with ⟨h1, h2⟩
    simp [extract_summits_and_poi, List.mem_filter, isSummitWaypoint] at h1 h2
    exact h2.2 h1.2
  · intro w hw hsym
    have hns : pyNormalizedSymbol w.symbol = "" := by
      rw [hsym]; decide
    simp [extract_summits_and_poi, List.mem_filter, hw, isSummitWaypoint, hns]
  · exact List.filter_sublist _
  · exact List.filter_sublist _
  · simp [extract_derivative_files_names]
    omega

/-- C6 witness: the partition counts of a concrete document. -/
theorem C6_extract_summits_and_poi_witness :
    (extract_summits_and_poi sampleGPX).1.length
        + (extract_summits_and_poi sampleGPX).2.length
      = sampleGPX.waypoints.length :=
  (C6_extract_summits_and_poi sampleGPX "bob-graham-round").1

/-! ### C7 : simplified track -/

/-- C7: `build_simplified_track_gpx` returns a GPX with exactly one
track holding exactly one segment, whose point list is the
concatenation, in original order, of the points of every segment of
every track of the input. -/
theorem C7_build_simplified_track_gpx (gpx : GPX) (nm : String) :
    (build_simplified_track_gpx gpx nm).tracks.length = 1 ∧
    ∀ t ∈ (build_simplified_track_gpx gpx nm).tracks,
      t.segments.length = 1 ∧
      ∀ s ∈ t.segments,
        s.points = gpx.tracks.flatMap
          (fun tr => tr.segments.flatMap Segment.points) := by
  refine ⟨rfl, ?_⟩
  intro t ht
  simp only [build_simplified_track_gpx, List.mem_singleton] at ht
  subst ht
  refine ⟨rfl, ?_⟩
  intro s hs
  simp only [List.mem_singleton] at hs
  subst hs
  show gpx.tracks.foldl
      (fun acc t => t.segments.foldl (fun acc2 sg => acc2 ++ sg.points) acc) []
    = _
  have h1 : (fun (acc : List TrackPoint) (t : Track) =>
        t.segments.foldl (fun acc2 sg => acc2 ++ sg.points) acc)
      = fun acc t => acc ++ t.segments.flatMap Segment.points := by
    funext acc t
    exact foldl_append_bind Segment.points t.segments acc
  rw [h1, foldl_append_bind, List.nil_append]

/-- C7 witness: the merged point list of a concrete document. -/
theorem C7_build_simplified_track_gpx_witness :
    (build_simplified_track_gpx sampleGPX "Bob").tracks.length = 1 :=
  (C7_build_simplified_track_gpx sampleGPX "Bob").1

/-! ### C5 : summit enrichment -/

/-- A small hill database. -/
def sampleHills : List HillRow :=
  [⟨278, "Scafell Pike", 54, -3, 978⟩, ⟨1, "Ben Nevis", 56, -5, 1344⟩]

/-- A summit waypoint carrying the DoBIH id 278. -/
def summitWaypoint : Waypoint :=
  { latitude := some 1, longitude := some 2, elevation := some 3,
    name := some "Sca Fell", symbol := some "Summit",
    dobihNumber := some "278" }

/-- A document with one enrichable summit and one plain waypoint. -/
def summitGPX : GPX :=
  { waypoints := [summitWaypoint, originWaypoint], tracks := [] }

/-- The summit waypoint after enrichment from `sampleHills`. -/
def enrichedSummitWaypoint : Waypoint :=
  { summitWaypoint with latitude := some 54, longitude := some (-3),
                        elevation := some 978, name := some "Scafell Pike" }

/-- C5: `enrich_gpx_with_hill_data` overwrites the latitude, longitude,
elevation and name of every waypoint whose symbol is exactly `'Summit'`
and whose extension holds a numeric DoBIH id matching a `Number` of the
database (the first matching row), and leaves every other waypoint
unchanged; the tracks and the number of waypoints are untouched. -/
theorem C5_enrich_gpx_with_hill_data (hills : List HillRow) (gpx : GPX) :
    (enrich_gpx_with_hill_data hills gpx).tracks = gpx.tracks ∧
    (∀ hid row, hills.find? (fun r => r.number == pyInt hid) = some row →
      row ∈ hills ∧ row.number = pyInt hid) ∧
    (∀ hid, hills.find? (fun r => r.number == pyInt hid) = none ↔
      ∀ row ∈ hills, row.number ≠ pyInt hid) ∧
    List.Forall₂ (fun w w2 =>
        (∀ hid row, w.symbol = some "Summit" → w.dobihNumber = some hid →
          pyIsDigit hid = true →
          hills.find? (fun r => r.number == pyInt hid) = some row →
          w2 = { w with latitude := some row.latitude,
                        longitude := some row.longitude,
                        elevation := some row.metres,
                        name := some row.hillName }) ∧
        ((w.symbol ≠ some "Summit" ∨
          w.dobihNumber = none ∨
          (∀ hid, w.dobihNumber = some hid → pyIsDigit hid = false) ∨
          (∀ hid, w.dobihNumber = some hid →
            hills.find? (fun r => r.number == pyInt hid) = none)) →
          w2 = w))
      gpx.waypoints (enrich_gpx_with_hill_data hills gpx).waypoints := by
  refine ⟨rfl, ?_, ?_, ?_⟩
  · intro hid row hfind
    refine ⟨List.mem_of_find?_eq_some hfind, ?_⟩
    have := List.find?_some hfind
    simpa using this
  · intro hid
    rw [List.find?_eq_none]
    constructor
    · intro h row hrow
      have := h row hrow
      simpa using this
    · intro h row hrow
      simpa using h row hrow
  · show List.Forall₂ _ gpx.waypoints (gpx.waypoints.map (enrichWaypoint hills))
    induction gpx.waypoints with
    | nil => exact List.Forall₂.nil
    | cons w rest ih =>
      refine List.Forall₂.cons ⟨?_, ?_⟩ ih
      · intro hid row hsym hdob hdigit hfind
        simp [enrichWaypoint, hsym, hdob, hdigit, hfind]
      · intro hcase
        rcases hcase with h | h | h | h
        · have hb : (w.symbol == some "Summit") = false := by
            simpa using h
          simp [enrichWaypoint, hb]
        · simp [enrichWaypoint, h]
        · cases hdob : w.dobihNumber with
          | none => simp [enrichWaypoint, hdob]
          | some hid => simp [enrichWaypoint, hdob, h hid hdob]
        · cases hdob : w.dobihNumber with
          | none => simp [enrichWaypoint, hdob]
          | some hid =>
            cases hdig : pyIsDigit hid with
            | false => simp [enrichWaypoint, hdob, hdig]
            | true => simp [enrichWaypoint, hdob, hdig, h hid hdob]

/-- C5 witness: on a concrete document the summit with DoBIH id 278 is
rewritten to the database row and the plain waypoint is untouched. -/
theorem C5_enrich_gpx_with_hill_data_witness :
    (enrich_gpx_with_hill_data sampleHills summitGPX).tracks = summitGPX.tracks ∧
    (enrich_gpx_with_hill_data sampleHills summitGPX).waypoints
      = [enrichedSummitWaypoint, originWaypoint] :=
  ⟨(C5_enrich_gpx_with_hill_data sampleHills summitGPX).1, by decide⟩

/-! ### C8 : batched elevation requests -/

theorem chunked100_flatten {α : Type} :
    ∀ l : List α, (chunked100 l).flatten = l := by
  intro l
  induction l using chunked100.induct with
  | case1 => simp [chunked100]
  | case2 a rest ih =>
    rw [chunked100, List.flatten_cons, ih, List.take_append_drop]

theorem chunked100_mem {α : Type} :
    ∀ l : List α, ∀ b ∈ chunked100 l, b.length ≤ 100 ∧ b ≠ [] := by
  intro l
  induction l using chunked100.induct with
  | case1 => intro b hb; simp [chunked100] at hb
  | case2 a rest ih =>
    intro b hb
    rw [chunked100] at hb
    rcases List.mem_cons.mp hb with h | h
    · subst h
      constructor
      · simp [List.length_take]
      · intro hnil
        have : ((a :: rest).take 100).length = 0 := by rw [hnil]; rfl
        simp [List.length_take] at this
    · exact ih b h

theorem apiBlock_length (api : List (ℚ × ℚ) → Option (List (Option ℚ)))
    (hapi : ∀ b rs, api b = some rs → rs.length = b.length)
    (b : List (ℚ × ℚ)) : (apiBlock api b).length = b.length := by
  unfold apiBlock
  cases h : api b with
  | none => simp
  | some rs => exact hapi b rs h

theorem getElev_eq_flatMap (api : List (ℚ × ℚ) → Option (List (Option ℚ)))
    (coords : List (ℚ × ℚ)) :
    get_elevation_open_elevation api coords
      = (chunked100 coords).flatMap (apiBlock api) := by
  show (chunked100 coords).foldl (fun acc batch => acc ++ apiBlock api batch) []
      = _
  rw [foldl_append_bind (apiBlock api) (chunked100 coords) [], List.nil_append]

theorem getElev_length (api : List (ℚ × ℚ) → Option (List (Option ℚ)))
    (hapi : ∀ b rs, api b = some rs → rs.length = b.length)
    (coords : List (ℚ × ℚ)) :
    (get_elevation_open_elevation api coords).length = coords.length := by
  rw [getElev_eq_flatMap, List.length_flatMap]
  have h1 : (chunked100 coords).map (fun b => (apiBlock api b).length)
      = (chunked100 coords).map List.length := by
    apply List.map_congr_left
    intro b _
    exact apiBlock_length api hapi b
  calc ((chunked100 coords).map (fun b => (apiBlock api b).length)).sum
      = ((chunked100 coords).map List.length).sum := by rw [h1]
    _ = (chunked100 coords).flatten.length := (List.length_flatten _).symm
    _ = coords.length := by rw [chunked100_flatten]

theorem getElev_slice (api : List (ℚ × ℚ) → Option (List (Option ℚ)))
    (hapi : ∀ b rs, api b = some rs → rs.length = b.length) :
    ∀ (coords : List (ℚ × ℚ)) (k : Nat), k < (chunked100 coords).length →
      ((get_elevation_open_elevation api coords).drop (100 * k)).take
          ((chunked100 coords).getD k []).length
        = apiBlock api ((chunked100 coords).getD k []) := by
  intro coords
  induction coords using chunked100.induct with
  | case1 => intro k hk; simp [chunked100] at hk
  | case2 a rest ih =>
    intro k hk
    have hstep : get_elevation_open_elevation api (a :: rest)
        = apiBlock api ((a :: rest).take 100)
          ++ get_elevation_open_elevation api ((a :: rest).drop 100) := by
      rw [getElev_eq_flatMap, getElev_eq_flatMap]
      rw [chunked100]
      rw [List.flatMap_cons]
    match k with
    | 0 =>
      rw [chunked100]
      rw [List.getD_cons_zero]
      rw [Nat.mul_zero, hstep, List.drop_zero]
      rw [← apiBlock_length api hapi ((a :: rest).take 100)]
      exact List.take_left _ _
    | Nat.succ k =>
      have hk' : k < (chunked100 ((a :: rest).drop 100)).length := by
        rw [chunked100] at hk
        simpa using hk
      have hrest : (a :: rest).drop 100 ≠ [] := by
        intro hnil
        rw [hnil] at hk'
        simp [chunked100] at hk'
      have hlen100 : ((a :: rest).take 100).length = 100 := by
        have h1 : 100 < (a :: rest).length := by
          rcases Nat.lt_or_ge 100 (a :: rest).length with h | h
          · exact h
          · exact absurd (List.drop_eq_nil_of_le h) hrest
        rw [List.length_take, Nat.min_eq_left (Nat.le_of_lt h1)]
      have hblk : (apiBlock api ((a :: rest).take 100)).length = 100 := by
        rw [apiBlock_length api hapi, hlen100]
      rw [chunked100]
      rw [List.getD_cons_succ]
      rw [hstep]
      have hdrop : (apiBlock api ((a :: rest).take 100)
          ++ get_elevation_open_elevation api ((a :: rest).drop 100)).drop
            (100 * (k + 1))
          = (get_elevation_open_elevation api ((a :: rest).drop 100)).drop
            (100 * k) := by
        have harith : 100 * (k + 1)
            = (apiBlock api ((a :: rest).take 100)).length + 100 * k := by
          rw [hblk]; ring
        rw [harith, List.drop_append]
      rw [hdrop]
      exact ih k hk'

/-- Elevation API stub answering 5 m for every coordinate of a batch. -/
def apiConst5 : List (ℚ × ℚ) → Option (List (Option ℚ)) :=
  fun b => some (List.replicate b.length (some 5))

/-- C8: under the Open-Elevation contract that a successful response
carries one result per requested location, `get_elevation_open_elevation`
partitions the input into non-empty batches of at most 100 coordinates
(their concatenation is the input), returns exactly one entry per input
coordinate, and the output segment of the `k`-th batch is that batch's
response, each coordinate of a failed batch contributing `none` at its
position. -/
theorem C8_get_elevation_open_elevation
    (api : List (ℚ × ℚ) → Option (List (Option ℚ)))
    (coords : List (ℚ × ℚ))
    (hapi : ∀ b rs, api b = some rs → rs.length = b.length) :
    (chunked100 coords).flatten = coords ∧
    (∀ b ∈ chunked100 coords, b.length ≤ 100 ∧ b ≠ []) ∧
    (get_elevation_open_elevation api coords).length = coords.length ∧
    ∀ k, k < (chunked100 coords).length →
      ((get_elevation_open_elevation api coords).drop (100 * k)).take
          ((chunked100 coords).getD k []).length
        = apiBlock api ((chunked100 coords).getD k []) ∧
      (api ((chunked100 coords).getD k []) = none →
        ((get_elevation_open_elevation api coords).drop (100 * k)).take
            ((chunked100 coords).getD k []).length
          = List.replicate ((chunked100 coords).getD k []).length none) := by
  refine ⟨chunked100_flatten coords, chunked100_mem coords, getElev_length api hapi coords, ?_⟩
  intro k hk
  refine ⟨getElev_slice api hapi coords k hk, ?_⟩
  intro hnone
  rw [getElev_slice api hapi coords k hk]
  unfold apiBlock
  rw [hnone]

/-- C8 witness: two coordinates make a single batch and get exactly two
entries back. -/
theorem C8_get_elevation_open_elevation_witness :
    (get_elevation_open_elevation apiConst5 [(1, 2), (3, 4)]).length = 2 :=
  (C8_get_elevation_open_elevation apiConst5 [(1, 2), (3, 4)]
    (by intro b rs h; cases h; simp)).2.2.1

/-! ### C9 : bounding box -/

theorem pyMax_ge_init : ∀ (l : List ℚ) (a : ℚ), a ≤ pyMax a l := by
  intro l
  induction l with
  | nil => intro a; exact le_refl a
  | cons x l ih =>
    intro a
    exact le_trans (le_max_left a x) (ih (max a x))

theorem pyMax_ge_mem : ∀ (l : List ℚ) (a x : ℚ), x ∈ l → x ≤ pyMax a l := by
  intro l
  induction l with
  | nil => intro a x hx; cases hx
  | cons y l ih =>
    intro a x hx
    rcases List.mem_cons.mp hx with h | h
    · subst h
      exact le_trans (le_max_right a x) (pyMax_ge_init l (max a x))
    · exact ih (max a y) x h

theorem pyMax_mem_or : ∀ (l : List ℚ) (a : ℚ), pyMax a l = a ∨ pyMax a l ∈ l := by
  intro l
  induction l with
  | nil => intro a; exact Or.inl rfl
  | cons x l ih =>
    intro a
    rcases ih (max a x) with h | h
    · show pyMax (max a x) l = a ∨ pyMax (max a x) l ∈ x :: l
      rcases max_choice a x with hm | hm
      · exact Or.inl (by rw [h, hm])
      · exact Or.inr (by rw [h, hm]; exact List.mem_cons_self x l)
    · exact Or.inr (List.mem_cons_of_mem x h)

theorem pyMin_le_init : ∀ (l : List ℚ) (a : ℚ), pyMin a l ≤ a := by
  intro l
  induction l with
  | nil => intro a; exact le_refl a
  | cons x l ih =>
    intro a
    exact le_trans (ih (min a x)) (min_le_left a x)

theorem pyMin_le_mem : ∀ (l : List ℚ) (a x : ℚ), x ∈ l → pyMin a l ≤ x := by
  intro l
  induction l with
  | nil => intro a x hx; cases hx
  | cons y l ih =>
    intro a x hx
    rcases List.mem_cons.mp hx with h | h
    · subst h
      exact le_trans (pyMin_le_init l (min a x)) (min_le_right a x)
    · exact ih (min a y) x h

theorem pyMin_mem_or : ∀ (l : List ℚ) (a : ℚ), pyMin a l = a ∨ pyMin a l ∈ l := by
  intro l
  induction l with
  | nil => intro a; exact Or.inl rfl
  | cons x l ih =>
    intro a
    rcases ih (min a x) with h | h
    · show pyMin (min a x) l = a ∨ pyMin (min a x) l ∈ x :: l
      rcases min_choice a x with hm | hm
      · exact Or.inl (by rw [h, hm])
      · exact Or.inr (by rw [h, hm]; exact List.mem_cons_self x l)
    · exact Or.inr (List.mem_cons_of_mem x h)

/-- The latitude buffer `500 / 111_000` of `calculate_bounding_box`. -/
def latBufferVal : ℚ := 500 / 111000

/-- The longitude buffer `500 / (111_320 * cos(radians(avg_lat)))` of
`calculate_bounding_box`, as a function of the waypoint list. -/
def lonBufferVal (cosDeg : ℚ → ℚ) (wpts : List (ℚ × ℚ)) : ℚ :=
  500 / (111320 * cosDeg
    ((wpts.map Prod.fst).sum / ((wpts.map Prod.fst).length : ℚ)))

/-- Constant cosine stub. -/
def cosOne : ℚ → ℚ := fun _ => 1

/-- C9: `calculate_bounding_box` raises `ValueError` on an empty list;
on a non-empty list it returns `(north, south, east, west)` where north
(resp. south) exceeds the maximum (resp. minimum) latitude by exactly
`500/111000` degrees and east (resp. west) exceeds the maximum
(resp. minimum) longitude by exactly the latitude-scaled longitude
buffer; and whenever the cosine of the average latitude is positive
(waypoints away from the poles), every waypoint lies strictly inside
the box. -/
theorem C9_calculate_bounding_box (cosDeg : ℚ → ℚ) (wpts : List (ℚ × ℚ)) :
    (wpts = [] → calculate_bounding_box cosDeg wpts
        = Except.error "No waypoints provided") ∧
    (wpts ≠ [] →
      ∃ n s e w, calculate_bounding_box cosDeg wpts = Except.ok (n, s, e, w) ∧
        (∀ p ∈ wpts,
          p.1 + latBufferVal ≤ n ∧ s ≤ p.1 - latBufferVal ∧
          p.2 + lonBufferVal cosDeg wpts ≤ e ∧
          w ≤ p.2 - lonBufferVal cosDeg wpts) ∧
        (∃ p ∈ wpts, n = p.1 + latBufferVal) ∧
        (∃ p ∈ wpts, s = p.1 - latBufferVal) ∧
        (∃ p ∈ wpts, e = p.2 + lonBufferVal cosDeg wpts) ∧
        (∃ p ∈ wpts, w = p.2 - lonBufferVal cosDeg wpts) ∧
        (0 < cosDeg ((wpts.map Prod.fst).sum / ((wpts.map Prod.fst).length : ℚ)) →
          ∀ p ∈ wpts, s < p.1 ∧ p.1 < n ∧ w < p.2 ∧ p.2 < e)) := by
  constructor
  · intro h; subst h; rfl
  · intro hne
    match wpts, hne with
    | p0 :: ps, _ =>
      refine ⟨pyMax p0.1 (ps.map Prod.fst) + latBufferVal,
              pyMin p0.1 (ps.map Prod.fst) - latBufferVal,
              pyMax p0.2 (ps.map Prod.snd) + lonBufferVal cosDeg (p0 :: ps),
              pyMin p0.2 (ps.map Prod.snd) - lonBufferVal cosDeg (p0 :: ps),
              rfl, ?_, ?_, ?_, ?_, ?_, ?_⟩
      · intro p hp
        have hlat1 : p.1 ≤ pyMax p0.1 (ps.map Prod.fst) := by
          rcases List.mem_cons.mp hp with h | h
          · subst h; exact pyMax_ge_init _ _
          · exact pyMax_ge_mem _ _ _ (List.mem_map_of_mem Prod.fst h)
        have hlat2 : pyMin p0.1 (ps.map Prod.fst) ≤ p.1 := by
          rcases List.mem_cons.mp hp with h | h
          · subst h; exact pyMin_le_init _ _
          · exact pyMin_le_mem _ _ _ (List.mem_map_of_mem Prod.fst h)
        have hlon1 : p.2 ≤ pyMax p0.2 (ps.map Prod.snd) := by
          rcases List.mem_cons.mp hp with h | h
          · subst h; exact pyMax_ge_init _ _
          · exact pyMax_ge_mem _ _ _ (List.mem_map_of_mem Prod.snd h)
        have hlon2 : pyMin p0.2 (ps.map Prod.snd) ≤ p.2 := by
          rcases List.mem_cons.mp hp with h | h
          · subst h; exact pyMin_le_init _ _
          · exact pyMin_le_mem _ _ _ (List.mem_map_of_mem Prod.snd h)
        exact ⟨by linarith, by linarith, by linarith, by linarith⟩
      · rcases pyMax_mem_or (ps.map Prod.fst) p0.1 with h | h
        · exact ⟨p0, List.mem_cons_self _ _, by rw [h]⟩
        · rcases List.mem_map.mp h with ⟨q, hq, hq2⟩
          exact ⟨q, List.mem_cons_of_mem p0 hq, by rw [hq2]⟩
      · rcases pyMin_mem_or (ps.map Prod.fst) p0.1 with h | h
        · exact ⟨p0, List.mem_cons_self _ _, by rw [h]⟩
        · rcases List.mem_map.mp h with ⟨q, hq, hq2⟩
          exact ⟨q, List.mem_cons_of_mem p0 hq, by rw [hq2]⟩
      · rcases pyMax_mem_or (ps.map Prod.snd) p0.2 with h | h
        · exact ⟨p0, List.mem_cons_self _ _, by rw [h]⟩
        · rcases List.mem_map.mp h with ⟨q, hq, hq2⟩
          exact ⟨q, List.mem_cons_of_mem p0 hq, by rw [hq2]⟩
      · rcases pyMin_mem_or (ps.map Prod.snd) p0.2 with h | h
        · exact ⟨p0, List.mem_cons_self _ _, by rw [h]⟩
        · rcases List.mem_map.mp h with ⟨q, hq, hq2⟩
          exact ⟨q, List.mem_cons_of_mem p0 hq, by rw [hq2]⟩
      · intro hcos p hp
        have hlatB : (0 : ℚ) < latBufferVal := by norm_num [latBufferVal]
        have hlonB : (0 : ℚ) < lonBufferVal cosDeg (p0 :: ps) := by
          unfold lonBufferVal
          apply div_pos (by norm_num)
          exact mul_pos (by norm_num) hcos
        have hlat1 : p.1 ≤ pyMax p0.1 (ps.map Prod.fst) := by
          rcases List.mem_cons.mp hp with h | h
          · subst h; exact pyMax_ge_init _ _
          · exact pyMax_ge_mem _ _ _ (List.mem_map_of_mem Prod.fst h)
        have hlat2 : pyMin p0.1 (ps.map Prod.fst) ≤ p.1 := by
          rcases List.mem_cons.mp hp with h | h
          · subst h; exact pyMin_le_init _ _
          · exact pyMin_le_mem _ _ _ (List.mem_map_of_mem Prod.fst h)
        have hlon1 : p.2 ≤ pyMax p0.2 (ps.map Prod.snd) := by
          rcases List.mem_cons.mp hp with h | h
          · subst h; exact pyMax_ge_init _ _
          · exact pyMax_ge_mem _ _ _ (List.mem_map_of_mem Prod.snd h)
        have hlon2 : pyMin p0.2 (ps.map Prod.snd) ≤ p.2 := by
          rcases List.mem_cons.mp hp with h | h
          · subst h; exact pyMin_le_init _ _
          · exact pyMin_le_mem _ _ _ (List.mem_map_of_mem Prod.snd h)
        exact ⟨by linarith, by linarith, by linarith, by linarith⟩

/-- C9 witness: the empty list errors and a concrete pair of waypoints
gets a bounding box. -/
theorem C9_calculate_bounding_box_witness :
    calculate_bounding_box cosOne [] = Except.error "No waypoints provided" ∧
    ∃ n s e w, calculate_bounding_box cosOne [(1, 2), (3, 4)]
      = Except.ok (n, s, e, w) := by
  constructor
  · exact (C9_calculate_bounding_box cosOne []).1 rfl
  · obtain ⟨n, s, e, w, h, -⟩ :=
      (C9_calculate_bounding_box cosOne [(1, 2), (3, 4)]).2 (by simp)
    exact ⟨n, s, e, w, h⟩

/-! ### C10 : waypoint validation -/

theorem validCoords_length_le (wpts : List Waypoint) :
    (validCoords wpts).length ≤ wpts.length :=
  List.length_filterMap_le _ _

theorem missing_iff (wpts : List Waypoint) :
    (validCoords wpts).length < wpts.length ↔
      ∃ w ∈ wpts, w.latitude = none ∨ w.longitude = none := by
  induction wpts with
  | nil => simp [validCoords]
  | cons w rest ih =>
    cases hla : w.latitude with
    | none =>
      have hcons : validCoords (w :: rest) = validCoords rest := by
        simp [validCoords, List.filterMap_cons, hla]
      rw [hcons]
      constructor
      · intro _; exact ⟨w, List.mem_cons_self _ _, Or.inl hla⟩
      · intro _
        exact Nat.lt_succ_of_le (validCoords_length_le rest)
    | some la =>
      cases hlo : w.longitude with
      | none =>
        have hcons : validCoords (w :: rest) = validCoords rest := by
          simp [validCoords, List.filterMap_cons, hla, hlo]
        rw [hcons]
        constructor
        · intro _; exact ⟨w, List.mem_cons_self _ _, Or.inr hlo⟩
        · intro _
          exact Nat.lt_succ_of_le (validCoords_length_le rest)
      | some lo =>
        have hcons : validCoords (w :: rest) = (la, lo) :: validCoords rest := by
          simp [validCoords, List.filterMap_cons, hla, hlo]
        rw [hcons]
        simp only [List.length_cons, Nat.succ_lt_succ_iff, ih]
        constructor
        · intro ⟨v, hv, hmiss⟩
          exact ⟨v, List.mem_cons_of_mem w hv, hmiss⟩
        · intro ⟨v, hv, hmiss⟩
          rcases List.mem_cons.mp hv with h | h
          · subst h
            rcases hmiss with h2 | h2
            · rw [hla] at h2; cases h2
            · rw [hlo] at h2; cases h2
          · exact ⟨v, h, hmiss⟩

theorem consecutivePairsOk_iff (dist : ℚ × ℚ → ℚ × ℚ → ℚ) (maxD : ℚ) :
    ∀ l, consecutivePairsOk dist maxD l = true ↔
      ∀ i, i + 1 < l.length →
        dist (l.getD i (0, 0)) (l.getD (i + 1) (0, 0)) ≤ maxD := by
  intro l
  induction l with
  | nil => simp [consecutivePairsOk]
  | cons a rest ih =>
    cases rest with
    | nil => simp [consecutivePairsOk]
    | cons b rest2 =>
      rw [consecutivePairsOk, Bool.and_eq_true, decide_eq_true_iff, ih]
      constructor
      · rintro ⟨h1, h2⟩ i hi
        match i with
        | 0 => simpa using h1
        | Nat.succ j =>
          have := h2 j (by simpa using hi)
          simpa using this
      · intro h
        refine ⟨by simpa using h 0 (by simp), ?_⟩
        intro j hj
        have := h (j + 1) (by simpa using hj)
        simpa using this

/-- C10 counterexample: the claim says a single-waypoint list always
passes, but `validate_waypoints` receives `max_waypoints` as an
arbitrary integer and exits on one (coordinate-complete) waypoint when
`max_waypoints = 0`, since `1 > 0`. -/
theorem C10_validate_waypoints_counterexample :
    validate_waypoints (fun _ _ => 0) [originWaypoint] 0 20 = false := by
  decide

/-- C10 (amended): `validate_waypoints` exits iff some waypoint lacks a
coordinate, or the count of valid waypoints exceeds `max_waypoints`, or
some consecutive pair of valid waypoints is strictly farther apart than
`max_distance` km (so a pair at exactly `max_distance` passes); the
empty list passes whenever `max_waypoints ≥ 0` and a single
coordinate-complete waypoint passes whenever `max_waypoints ≥ 1`. -/
theorem C10_validate_waypoints (dist : ℚ × ℚ → ℚ × ℚ → ℚ)
    (wpts : List Waypoint) (maxW : ℤ) (maxD : ℚ) :
    (validate_waypoints dist wpts maxW maxD = false ↔
      (∃ w ∈ wpts, w.latitude = none ∨ w.longitude = none) ∨
      ((validCoords wpts).length : ℤ) > maxW ∨
      (∃ i, i + 1 < (validCoords wpts).length ∧
        maxD < dist ((validCoords wpts).getD i (0, 0))
                    ((validCoords wpts).getD (i + 1) (0, 0)))) ∧
    (0 ≤ maxW → validate_waypoints dist [] maxW maxD = true) ∧
    (∀ (w : Waypoint) (la lo : ℚ), w.latitude = some la →
      w.longitude = some lo → 1 ≤ maxW →
      validate_waypoints dist [w] maxW maxD = true) := by
  refine ⟨?_, ?_, ?_⟩
  · rw [show validate_waypoints dist wpts maxW maxD
        = (if (validCoords wpts).length < wpts.length then false
           else if ((validCoords wpts).length : ℤ) > maxW then false
           else consecutivePairsOk dist maxD (validCoords wpts)) from rfl]
    by_cases h1 : (validCoords wpts).length < wpts.length
    · rw [if_pos h1]
      constructor
      · intro _
        exact Or.inl ((missing_iff wpts).mp h1)
      · intro _
        rfl
    · rw [if_neg h1]
      by_cases h2 : ((validCoords wpts).length : ℤ) > maxW
      · rw [if_pos h2]
        constructor
        · intro _
          exact Or.inr (Or.inl h2)
        · intro _
          rfl
      · rw [if_neg h2]
        constructor
        · intro hf
          refine Or.inr (Or.inr ?_)
          have hne : ¬ (consecutivePairsOk dist maxD (validCoords wpts) = true) := by
            rw [hf]; simp
          rw [consecutivePairsOk_iff] at hne
          push_neg at hne
          exact hne
        · intro hdisj
          rcases hdisj with h | h | ⟨i, hi, hd⟩
          · exact absurd ((missing_iff wpts).mpr h) h1
          · exact absurd h h2
          · cases hok : consecutivePairsOk dist maxD (validCoords wpts) with
            | false => rfl
            | true =>
              exfalso
              have := (consecutivePairsOk_iff dist maxD (validCoords wpts)).mp hok i hi
              exact absurd this (not_le.mpr hd)
  · intro hW
    have h2 : ¬ ((0 : ℤ) > maxW) := by omega
    simp [validate_waypoints, validCoords, consecutivePairsOk, h2]
  · intro w la lo hla hlo hW
    have hval : validCoords [w] = [(la, lo)] := by
      simp [validCoords, List.filterMap_cons, hla, hlo]
    have h2 : ¬ (((validCoords [w]).length : ℤ) > maxW) := by
      rw [hval]; simp; omega
    simp [validate_waypoints, hval, consecutivePairsOk, h2]
    omega

/-- C10 witness: with a generous limit a single complete waypoint
passes validation. -/
theorem C10_validate_waypoints_witness :
    validate_waypoints (fun _ _ => 0) [originWaypoint] 50 20 = true :=
  (C10_validate_waypoints (fun _ _ => 0) [] 50 20).2.2
    originWaypoint 0 0 rfl rfl (by norm_num)

/-! ### C4 : GraphML cache -/

/-- A one-file cache directory holding a graph (content `42`) for the
bounding box `a,b,c,d` written at time 5. -/
def cacheStateW : FSState Nat :=
  ⟨[("graph_a,b,c,d.graphml", 5, 42)]⟩

/-- C4: the cache file name is derived from the MD5 of the bounding-box
string `"{west},{south},{east},{north}"`, so equal bounding boxes
address the same file; when the file exists, `force_refresh` is false
and the file age is at most `max_cache_age_days` days, the cached graph
is returned with no download and no directory change; and in every
branch the previous directory contents survive (an expired entry is
only shadowed by the fresh write, never deleted). -/
theorem C4_download_osm_graph {G : Type} (md5 : String → String) (now : Nat)
    (west south east north : String) (days : Nat) (force : Bool)
    (fetch : G) (st : FSState G) :
    cacheFileName md5 west south east north
      = "graph_" ++ md5 (west ++ "," ++ south ++ "," ++ east ++ "," ++ north)
        ++ ".graphml" ∧
    (∀ ctime g,
      fsLookup st (cacheFileName md5 west south east north) = some (ctime, g) →
      force = false → now - ctime ≤ days * 86400 →
      download_osm_graph md5 now west south east north days force fetch st
        = (g, st, false)) ∧
    List.IsSuffix st.files
      (download_osm_graph md5 now west south east north days force
        fetch st).2.1.files := by
  refine ⟨rfl, ?_, ?_⟩
  · intro ctime g hlook hforce hage
    have hgt : ¬ (now - ctime > days * 86400) := Nat.not_lt.mpr hage
    simp [download_osm_graph, hlook, hforce, hgt]
  · cases hlook : fsLookup st (cacheFileName md5 west south east north) with
    | none =>
      simp [download_osm_graph, hlook, fsWrite]
    | some p =>
      cases p with
      | mk ctime g =>
        by_cases hc : (force || decide (now - ctime > days * 86400)) = true
        · simp [download_osm_graph, hlook, hc, fsWrite]
        · simp [download_osm_graph, hlook, hc]

/-- C4 witness: an identity digest, a cached graph five seconds old and
a one-day limit give a cache hit with no download. -/
theorem C4_download_osm_graph_witness :
    download_osm_graph (fun s => s) 10 "a" "b" "c" "d" 1 false 99 cacheStateW
      = (42, cacheStateW, false) :=
  (C4_download_osm_graph (fun s => s) 10 "a" "b" "c" "d" 1 false
    99 cacheStateW).2.1 5 42 (by decide) rfl (by norm_num)

/-! ### C2 : elevation-aware edge costs -/

theorem mapOption_forall2 {α β : Type} (f : α → Option β) :
    ∀ (l : List α) (out : List β), mapOption f l = some out →
      List.Forall₂ (fun a b => f a = some b) l out := by
  intro l
  induction l with
  | nil =>
    intro out h
    simp only [mapOption, Option.some.injEq] at h
    subst h
    exact List.Forall₂.nil
  | cons a l ih =>
    intro out h
    rw [mapOption] at h
    cases hfa : f a with
    | none =>
      rw [hfa] at h
      cases mapOption f l <;> simp at h
    | some b =>
      cases hml : mapOption f l with
      | none => rw [hfa, hml] at h; simp at h
      | some bs =>
        rw [hfa, hml] at h
        simp only [Option.some.injEq] at h
        subst h
        exact List.Forall₂.cons hfa (ih bs hml)

theorem costEdge_spec (geo : ℚ × ℚ → ℚ × ℚ → Option ℚ) (g : OSMGraph)
    (gp lp : ℚ) (e : GEdge) (o : CostedEdge)
    (hco : costEdge geo g gp lp e = some o) :
    o.u = e.u ∧ o.v = e.v ∧ o.key = e.key ∧
    ∀ nu nv, lookupNode g e.u = some nu → lookupNode g e.v = some nv →
      o.data.length = _edge_length geo g e.u e.v e.data ∧
      (∀ a b, nu.elevation = some a → nv.elevation = some b →
        o.data.cost = _edge_length geo g e.u e.v e.data
          + gp * max 0 (b - a) + lp * max 0 (a - b)) ∧
      ((nu.elevation = none ∨ nv.elevation = none) →
        o.data.cost = _edge_length geo g e.u e.v e.data) := by
  cases hnu : lookupNode g e.u with
  | none => rw [costEdge, hnu] at hco; simp at hco
  | some nu0 =>
    cases hnv : lookupNode g e.v with
    | none => rw [costEdge, hnu, hnv] at hco; simp at hco
    | some nv0 =>
      rw [costEdge, hnu, hnv] at hco
      simp only [Option.some.injEq] at hco
      subst hco
      refine ⟨rfl, rfl, rfl, ?_⟩
      intro nu nv hnu2 hnv2
      cases hnu2
      cases hnv2
      refine ⟨rfl, ?_, ?_⟩
      · intro a b ha hb
        simp [ha, hb]
      · intro hmiss
        rcases hmiss with h | h
        · simp [h]
        · cases hel : nu0.elevation <;> simp [h, hel]

/-- C2: when both endpoints of an edge carry an elevation,
`add_elevation_costs` sets the edge cost to
`length + gain_penalty * max 0 (elev_v - elev_u)
+ loss_penalty * max 0 (elev_u - elev_v)`; when either elevation is
missing the cost equals the length; and the length is the `length`
attribute, else the geometry length, else the geodesic distance between
the endpoints, else `0`, in that order of fallback. -/
theorem C2_add_elevation_costs (geo : ℚ × ℚ → ℚ × ℚ → Option ℚ)
    (g : OSMGraph) (gp lp : ℚ) (outs : List CostedEdge)
    (h : add_elevation_costs geo g gp lp = some outs) :
    outs.length = g.edges.length ∧
    List.Forall₂ (fun (e : GEdge) (o : CostedEdge) =>
      o.u = e.u ∧ o.v = e.v ∧ o.key = e.key ∧
      ∀ nu nv, lookupNode g e.u = some nu → lookupNode g e.v = some nv →
        o.data.length = _edge_length geo g e.u e.v e.data ∧
        (∀ a b, nu.elevation = some a → nv.elevation = some b →
          o.data.cost = _edge_length geo g e.u e.v e.data
            + gp * max 0 (b - a) + lp * max 0 (a - b)) ∧
        ((nu.elevation = none ∨ nv.elevation = none) →
          o.data.cost = _edge_length geo g e.u e.v e.data))
      g.edges outs ∧
    ∀ u v data,
      (∀ l, EdgeData.length data = some l → _edge_length geo g u v data = l) ∧
      (EdgeData.length data = none → ∀ gl, data.geomLength = some gl →
        _edge_length geo g u v data = gl) ∧
      (EdgeData.length data = none → data.geomLength = none →
        ∀ nu nv, lookupNode g u = some nu → lookupNode g v = some nv →
          (∀ dm, geo (nu.y, nu.x) (nv.y, nv.x) = some dm →
            _edge_length geo g u v data = dm) ∧
          (geo (nu.y, nu.x) (nv.y, nv.x) = none →
            _edge_length geo g u v data = 0)) := by
  have hf2 := mapOption_forall2 (costEdge geo g gp lp) g.edges outs h
  refine ⟨hf2.length_eq.symm, ?_, ?_⟩
  · exact hf2.imp (fun {e o} hco => costEdge_spec geo g gp lp e o hco)
  · intro u v data
    refine ⟨?_, ?_, ?_⟩
    · intro l hl
      simp [_edge_length, hl]
    · intro hl gl hgl
      simp [_edge_length, hl, hgl]
    · intro hl hgl nu nv hnu hnv
      constructor
      · intro dm hdm
        simp [_edge_length, hl, hgl, hnu, hnv, hdm]
      · intro hdm
        simp [_edge_length, hl, hgl, hnu, hnv, hdm]

/-- Geodesic stub that always raises. -/
def geoNone : ℚ × ℚ → ℚ × ℚ → Option ℚ := fun _ _ => none

/-- A two-node graph with elevations 100 and 130 joined by one edge of
length 50. -/
def osmGraphW : OSMGraph :=
  { nodes := [(1, ⟨0, 0, some 100⟩), (2, ⟨3, 4, some 130⟩)],
    edges := [⟨1, 2, 0, ⟨some 50, none⟩⟩] }

/-- The edge of `osmGraphW` after costing with penalties 10 and 2:
cost `50 + 10 * 30 + 2 * 0 = 350`. -/
def costedW : CostedEdge := ⟨1, 2, 0, ⟨50, none, 30, 0, 350⟩⟩

/-- C2 witness: the concrete graph is costed successfully. -/
theorem C2_add_elevation_costs_witness :
    ([costedW] : List CostedEdge).length = osmGraphW.edges.length :=
  (C2_add_elevation_costs geoNone osmGraphW 10 2 [costedW] (by
    have h1 : lookupNode osmGraphW 1 = some ⟨0, 0, some 100⟩ := rfl
    have h2 : lookupNode osmGraphW 2 = some ⟨3, 4, some 130⟩ := rfl
    have he : osmGraphW.edges = [⟨1, 2, 0, ⟨some 50, none⟩⟩] := rfl
    have hc : costEdge geoNone osmGraphW 10 2 ⟨1, 2, 0, ⟨some 50, none⟩⟩
        = some costedW := by
      rw [costEdge]
      dsimp only
      rw [h1, h2]
      dsimp only
      norm_num [costedW, _edge_length, max_def]
    show mapOption (costEdge geoNone osmGraphW 10 2) osmGraphW.edges
      = some [costedW]
    rw [he]
    simp [mapOption, hc])).1

/-! ### C3 : shortest paths with fallback -/

theorem getD_map_range {β : Type} (f : Nat → β) (n i : Nat) (d : β)
    (h : i < n) : ((List.range n).map f).getD i d = f i := by
  rw [List.getD_eq_getElem?_getD, List.getElem?_map, List.getElem?_range h]
  rfl

/-- C3: for `n ≥ 1` node ids, `calculate_paths` returns exactly `n - 1`
paths; under the networkx contract that a found shortest path starts at
its source and ends at its target, the `i`-th returned path starts at
`node_ids[i]` and ends at `node_ids[i+1]`; and when no path exists the
function does not raise but places the two-node fallback
`[node_ids[i], node_ids[i+1]]` at position `i`. -/
theorem C3_calculate_paths (sp : Nat → Nat → Option (List Nat))
    (nodeIds : List Nat)
    (hsp : ∀ u v p, sp u v = some p → p.head? = some u ∧ p.getLast? = some v)
    (_hne : 1 ≤ nodeIds.length) :
    (calculate_paths sp nodeIds).length = nodeIds.length - 1 ∧
    ∀ i, i < nodeIds.length - 1 →
      ((calculate_paths sp nodeIds).getD i []).head?
          = some (nodeIds.getD i 0) ∧
      ((calculate_paths sp nodeIds).getD i []).getLast?
          = some (nodeIds.getD (i + 1) 0) ∧
      (sp (nodeIds.getD i 0) (nodeIds.getD (i + 1) 0) = none →
        (calculate_paths sp nodeIds).getD i []
          = [nodeIds.getD i 0, nodeIds.getD (i + 1) 0]) := by
  refine ⟨by simp [calculate_paths], ?_⟩
  intro i hi
  have hg : (calculate_paths sp nodeIds).getD i []
      = match sp (nodeIds.getD i 0) (nodeIds.getD (i + 1) 0) with
        | some p => p
        | none => [nodeIds.getD i 0, nodeIds.getD (i + 1) 0] := by
    show ((List.range (nodeIds.length - 1)).map _).getD i [] = _
    rw [getD_map_range _ _ i _ hi]
  obtain ⟨res, hres⟩ : ∃ r, sp (nodeIds.getD i 0) (nodeIds.getD (i + 1) 0) = r :=
    ⟨_, rfl⟩
  rw [hres] at hg
  cases res with
  | some p =>
    rw [hg]
    obtain ⟨h1, h2⟩ := hsp _ _ p hres
    exact ⟨h1, h2, fun hn => by rw [hn] at hres; cases hres⟩
  | none =>
    rw [hg]
    refine ⟨rfl, ?_, fun _ => rfl⟩
    simp

/-- C3 witness: three node ids give two legs; the oracle fails on the
pair `(1, 2)` and answers the direct path elsewhere. -/
theorem C3_calculate_paths_witness :
    (calculate_paths spOracle [1, 2, 3]).length = 2 :=
  (C3_calculate_paths spOracle [1, 2, 3]
    (by
      intro u v p h
      unfold spOracle at h
      split at h
      · cases h
      · cases h
        exact ⟨rfl, by simp⟩)
    (by norm_num)).1

/-! ### C1 : waypoint snapping -/

theorem nearestNodeAux_none (d : ℚ × ℚ → ℚ × ℚ → ℚ) (p : ℚ × ℚ) :
    ∀ nds, nearestNodeAux d p nds = none → nds = [] := by
  intro nds h
  cases nds with
  | nil => rfl
  | cons nd nds =>
    rw [nearestNodeAux] at h
    cases haux : nearestNodeAux d p nds with
    | none => rw [haux] at h; cases h
    | some pr =>
      obtain ⟨m, dm⟩ := pr
      rw [haux] at h
      dsimp only at h
      by_cases hle : d p (nd.x, nd.y) ≤ dm
      · rw [if_pos hle] at h; cases h
      · rw [if_neg hle] at h; cases h

theorem nearestNodeAux_spec (d : ℚ × ℚ → ℚ × ℚ → ℚ) (p : ℚ × ℚ) :
    ∀ (nds : List SnapNode) (m : Nat) (dm : ℚ),
      nearestNodeAux d p nds = some (m, dm) →
      (∃ nd ∈ nds, nd.id = m ∧ d p (nd.x, nd.y) = dm) ∧
      ∀ nd ∈ nds, dm ≤ d p (nd.x, nd.y) := by
  intro nds
  induction nds with
  | nil => intro m dm h; cases h
  | cons nd nds ih =>
    intro m dm h
    rw [nearestNodeAux] at h
    cases haux : nearestNodeAux d p nds with
    | none =>
      have hnil := nearestNodeAux_none d p nds haux
      rw [haux] at h
      dsimp only at h
      cases h
      subst hnil
      refine ⟨⟨nd, List.mem_cons_self _ _, rfl, rfl⟩, ?_⟩
      intro nd2 h2
      rcases List.mem_cons.mp h2 with h3 | h3
      · subst h3; exact le_refl _
      · cases h3
    | some pr =>
      obtain ⟨m0, dm0⟩ := pr
      rw [haux] at h
      obtain ⟨⟨nd0, hnd0, hid0, hd0⟩, hmin⟩ := ih m0 dm0 haux
      dsimp only at h
      by_cases hle : d p (nd.x, nd.y) ≤ dm0
      · rw [if_pos hle] at h
        cases h
        refine ⟨⟨nd, List.mem_cons_self _ _, rfl, rfl⟩, ?_⟩
        intro nd2 h2
        rcases List.mem_cons.mp h2 with h3 | h3
        · subst h3; exact le_refl _
        · exact le_trans hle (hmin nd2 h3)
      · rw [if_neg hle] at h
        cases h
        refine ⟨⟨nd0, List.mem_cons_of_mem _ hnd0, hid0, hd0⟩, ?_⟩
        intro nd2 h2
        rcases List.mem_cons.mp h2 with h3 | h3
        · subst h3; exact le_of_lt (lt_of_not_le hle)
        · exact hmin nd2 h3

theorem snap_snd_filter (d : ℚ × ℚ → ℚ × ℚ → ℚ) (proj : ℚ × ℚ → ℚ × ℚ)
    (g : SnapGraph) (t : ℚ) :
    ∀ wpts, (snap_waypoints_to_graph d proj g wpts t).2
      = wpts.filter (keptWaypoint d proj g t) := by
  intro wpts
  induction wpts with
  | nil => rfl
  | cons w rest ih =>
    cases haux : nearestNodeAux d (proj (w.lon, w.lat)) g.nodes with
    | none =>
      simp [snap_waypoints_to_graph, List.filter_cons, keptWaypoint, haux, ih]
    | some pr =>
      obtain ⟨nid, dist⟩ := pr
      by_cases hgt : dist > t
      · simp [snap_waypoints_to_graph, List.filter_cons, keptWaypoint, haux,
              hgt, ih]
      · simp [snap_waypoints_to_graph, List.filter_cons, keptWaypoint, haux,
              hgt, ih]

theorem snap_forall2 (d : ℚ × ℚ → ℚ × ℚ → ℚ) (proj : ℚ × ℚ → ℚ × ℚ)
    (g : SnapGraph) (t : ℚ) :
    ∀ wpts,
      List.Forall₂ (fun nid w =>
        ∃ nd ∈ g.nodes, nd.id = nid ∧
          d (proj (w.lon, w.lat)) (nd.x, nd.y) ≤ t ∧
          ∀ nd2 ∈ g.nodes, d (proj (w.lon, w.lat)) (nd.x, nd.y)
            ≤ d (proj (w.lon, w.lat)) (nd2.x, nd2.y))
        (snap_waypoints_to_graph d proj g wpts t).1
        (snap_waypoints_to_graph d proj g wpts t).2 := by
  intro wpts
  induction wpts with
  | nil => exact List.Forall₂.nil
  | cons w rest ih =>
    cases haux : nearestNodeAux d (proj (w.lon, w.lat)) g.nodes with
    | none =>
      simpa [snap_waypoints_to_graph, haux] using ih
    | some pr =>
      obtain ⟨nid, dist⟩ := pr
      by_cases hgt : dist > t
      · simpa [snap_waypoints_to_graph, haux, hgt] using ih
      · obtain ⟨⟨nd, hnd, hid, hdist⟩, hmin⟩ :=
          nearestNodeAux_spec d (proj (w.lon, w.lat)) g.nodes nid dist haux
        have hred : snap_waypoints_to_graph d proj g (w :: rest) t
            = (nid :: (snap_waypoints_to_graph d proj g rest t).1,
               w :: (snap_waypoints_to_graph d proj g rest t).2) := by
          rw [snap_waypoints_to_graph, haux]
          dsimp only
          rw [if_neg hgt]
        rw [hred]
        refine List.Forall₂.cons ?_ ih
        refine ⟨nd, hnd, hid, ?_, ?_⟩
        · rw [hdist]; exact not_lt.mp hgt
        · intro nd2 h2
          rw [hdist]
          exact hmin nd2 h2

/-- C1 counterexample: the claim says a within-threshold waypoint is
snapped by splitting the nearest edge and inserting a new node at the
projection point, the returned id being that inserted node.  On a
concrete graph the origin waypoint is within the 5 m threshold (it is
kept), yet the returned id `7` is a node of the pre-existing node set:
nothing was inserted, and the function returns no modified graph at
all. -/
theorem C1_snap_counterexample :
    keptWaypoint flatMetric (fun p => p) twoNodeGraph 5 originRouteWaypoint
      = true ∧
    (snap_waypoints_to_graph flatMetric (fun p => p) twoNodeGraph
        [originRouteWaypoint] 5).1 = [7] ∧
    7 ∈ twoNodeGraph.nodes.map SnapNode.id := by
  decide

/-- C1 (amended): for every waypoint within the snap threshold,
`snap_waypoints_to_graph` keeps the waypoint and returns the id of a
nearest pre-existing node of the graph (minimising the projected
distance); waypoints beyond the threshold are dropped; no edge is split
and no node is inserted — the graph is never modified and every
returned id belongs to the original node set. -/
theorem C1_snap_waypoints_to_graph (d : ℚ × ℚ → ℚ × ℚ → ℚ)
    (proj : ℚ × ℚ → ℚ × ℚ) (g : SnapGraph) (wpts : List RouteWaypoint)
    (t : ℚ) :
    (snap_waypoints_to_graph d proj g wpts t).1.length
        = (snap_waypoints_to_graph d proj g wpts t).2.length ∧
    (snap_waypoints_to_graph d proj g wpts t).2
        = wpts.filter (keptWaypoint d proj g t) ∧
    List.Forall₂ (fun nid w =>
        ∃ nd ∈ g.nodes, nd.id = nid ∧
          d (proj (w.lon, w.lat)) (nd.x, nd.y) ≤ t ∧
          ∀ nd2 ∈ g.nodes, d (proj (w.lon, w.lat)) (nd.x, nd.y)
            ≤ d (proj (w.lon, w.lat)) (nd2.x, nd2.y))
      (snap_waypoints_to_graph d proj g wpts t).1
      (snap_waypoints_to_graph d proj g wpts t).2 ∧
    (∀ (w : RouteWaypoint) (nid : Nat) (dist : ℚ),
      nearestNodeAux d (proj (w.lon, w.lat)) g.nodes = some (nid, dist) →
      dist ≤ t → keptWaypoint d proj g t w = true) := by
  refine ⟨(snap_forall2 d proj g t wpts).length_eq,
          snap_snd_filter d proj g t wpts,
          snap_forall2 d proj g t wpts, ?_⟩
  intro w nid dist haux hle
  rw [keptWaypoint, haux]
  simp [not_lt.mpr hle]

/-- C1 witness: the origin waypoint is kept and paired with node 7,
a pre-existing node of the concrete graph. -/
theorem C1_snap_waypoints_to_graph_witness :
    (snap_waypoints_to_graph flatMetric (fun p => p) twoNodeGraph
        [originRouteWaypoint] 5).2 = [originRouteWaypoint] := by
  rw [(C1_snap_waypoints_to_graph flatMetric (fun p => p) twoNodeGraph
        [originRouteWaypoint] 5).2.1]
  decide

end RunningRoutes
